import Mathlib

/-!
Verification development for the `mirror-box` service worker (`src/sw.js`).

The worker is embedded shallowly: each event handler becomes a pure Lean
function over an explicit cache-storage state.  Network I/O is passed in as
an explicit outcome (a function from URL to a fetch result, or a single
fetch result for one intercepted request), so every handler is a total,
executable function of its inputs.
-/

set_option autoImplicit false

namespace SW

/-- Snapshot of an HTTP response, as the worker observes it: status code,
status text, response classification (`"basic"` for same-origin), content
type header and body. -/
structure Response where
  status : Nat
  statusText : String
  type : String
  contentType : String
  body : String
  deriving Repr, DecidableEq

/-- A request as seen by the fetch handler: its URL and its `destination`
(resource kind: `"document"`, `"script"`, `"style"`, `"image"`, ...). -/
structure Request where
  url : String
  destination : String
  deriving Repr, DecidableEq

/-- Outcome of a network `fetch`: the promise rejects (`fail`), or it
resolves with a response (a resolved `null` is kept representable because
the source guards with `!response`). -/
inductive NetResult where
  | fail
  | resolved (r : Option Response)
  deriving Repr, DecidableEq

/-- One cache namespace: an association list from URL to stored response. -/
abbrev CacheEntries := List (String × Response)

/-- The whole cache storage: named namespaces in creation order. -/
abbrev CacheStorage := List (String × CacheEntries)

/-- `const CACHE_VERSION = '1.0.1'` (sw.js line 2). -/
def CACHE_VERSION : String := "1.0.1"

/-- `const CACHE_NAME = `mirror-therapy-v${CACHE_VERSION}`` (sw.js line 3). -/
def CACHE_NAME : String := "mirror-therapy-v" ++ CACHE_VERSION

/-- `const RUNTIME_CACHE = 'runtime-cache'` (sw.js line 4). -/
def RUNTIME_CACHE : String := "runtime-cache"

/-- `const urlsToCache = [...]` (sw.js lines 7-13). -/
def urlsToCache : List String :=
  ["./", "./index.html", "./manifest.json", "./FNT512.png", "./FNT512-transparent.png"]

/-- Look up a key in one namespace (first matching entry). -/
def lookupE (es : CacheEntries) (k : String) : Option Response :=
  match es with
  | [] => none
  | e :: rest => if e.fst = k then some e.snd else lookupE rest k

/-- Overwrite the entry for a key (`Cache.put` semantics: last write wins). -/
def putE (es : CacheEntries) (k : String) (v : Response) : CacheEntries :=
  match es with
  | [] => [(k, v)]
  | e :: rest => if e.fst = k then putE rest k v else e :: putE rest k v

/-- Does a namespace with this name exist? -/
def nsExists (st : CacheStorage) (name : String) : Bool :=
  match st with
  | [] => false
  | ns :: rest => ns.fst = name || nsExists rest name

/-- The entries of a named namespace (empty when absent). -/
def nsEntries (st : CacheStorage) (name : String) : CacheEntries :=
  match st with
  | [] => []
  | ns :: rest => if ns.fst = name then ns.snd else nsEntries rest name

/-- `caches.open(name)`: create the namespace on first open. -/
def cacheOpen (st : CacheStorage) (name : String) : CacheStorage :=
  if nsExists st name then st else st ++ [(name, [])]

/-- `cache.put` on the namespace with this name (no-op when absent; the
worker always opens a cache before writing to it). -/
def cachePut (st : CacheStorage) (name : String) (k : String) (v : Response) : CacheStorage :=
  st.map (fun ns => if ns.fst = name then (ns.fst, putE ns.snd k v) else ns)

/-- `caches.delete(name)`: remove the namespace with this name. -/
def cachesDelete (st : CacheStorage) (name : String) : CacheStorage :=
  match st with
  | [] => []
  | ns :: rest => if ns.fst = name then cachesDelete rest name else ns :: cachesDelete rest name

/-- `caches.match(url)`: search every namespace in creation order. -/
def cachesMatch (st : CacheStorage) (url : String) : Option Response :=
  match st with
  | [] => none
  | ns :: rest =>
    match lookupE ns.snd url with
    | some r => some r
    | none => cachesMatch rest url

/-- Lookup through a named namespace of the storage. -/
def cacheLookup (st : CacheStorage) (name : String) (k : String) : Option Response :=
  lookupE (nsEntries st name) k

/-- Does `pat` occur as a contiguous run inside `s` (character lists)? -/
def charsInfix (pat s : List Char) : Bool :=
  match s with
  | [] => pat.isEmpty
  | _ :: rest => pat.isPrefixOf s || charsInfix pat rest

/-- `url.includes(pat)` of JavaScript, on the underlying character lists. -/
def urlIncludes (s pat : String) : Bool :=
  charsInfix pat.toList s.toList

/-- Success guard used by `Cache.addAll`: it rejects unless every fetched
response has a status in the 200 range. -/
def okStatus (r : Response) : Bool :=
  200 ≤ r.status && r.status ≤ 299

/-- `cache.addAll(urlsToCache)` (sw.js line 23): fetch every URL; reject
(`none`) if any fetch rejects, resolves null, or yields a non-2xx status;
otherwise produce the list of entries to store.  (The all-or-nothing batch
write is modelled atomically; the claims under verification do not depend
on the state left behind by a failed `addAll`.) -/
def addAll (net : String → NetResult) (urls : List String) :
    Option (List (String × Response)) :=
  match urls with
  | [] => some []
  | u :: rest =>
    match net u with
    | NetResult.resolved (some r) =>
      if okStatus r then (addAll net rest).map (fun es => (u, r) :: es) else none
    | _ => none

/-- Result of the install handler: the final storage, whether
`self.skipWaiting()` was requested, and whether the promise handed to
`event.waitUntil` rejected. -/
structure InstallResult where
  storage : CacheStorage
  skipWaiting : Bool
  rejected : Bool
  deriving Repr, DecidableEq

/-- Install listener (sw.js lines 16-34): open `CACHE_NAME`, `addAll` the
seed URLs, then `skipWaiting`; the trailing `.catch` logs the error, so the
`waitUntil` promise resolves on either path. -/
def installHandler (net : String → NetResult) (st : CacheStorage) : InstallResult :=
  let st1 := cacheOpen st CACHE_NAME
  match addAll net urlsToCache with
  | some entries =>
    { storage := entries.foldl (fun acc e => cachePut acc CACHE_NAME e.fst e.snd) st1
      skipWaiting := true
      rejected := false }
  | none =>
    { storage := st1, skipWaiting := false, rejected := false }

/-- One iteration of the activate cleanup (sw.js lines 44-50): delete the
namespace unless it is the current seed cache or the runtime cache. -/
def activateStep (acc : CacheStorage) (name : String) : CacheStorage :=
  if name ≠ CACHE_NAME ∧ name ≠ RUNTIME_CACHE then cachesDelete acc name else acc

/-- Activate listener (sw.js lines 37-59): enumerate the namespace names
and delete every one that is neither `CACHE_NAME` nor `RUNTIME_CACHE`. -/
def activateHandler (st : CacheStorage) : CacheStorage :=
  (st.map Prod.fst).foldl activateStep st

/-- What the fetch listener does with an intercepted request: bypass
(`return` before `respondWith`, letting the request pass through), or
respond — possibly with `undefined` when a bare `caches.match` miss is
returned. -/
inductive FetchAction where
  | passthrough
  | respond (r : Option Response)
  deriving Repr, DecidableEq

/-- The synthesized offline response (sw.js lines 113-119). -/
def offlineResponse : Response :=
  { status := 503
    statusText := "Service Unavailable"
    type := "default"
    contentType := "text/plain; charset=utf-8"
    body := "オフラインです。インターネット接続を確認してください。" }

/-- The stream-bypass test (sw.js lines 64-66). -/
def bypassUrl (url : String) : Bool :=
  urlIncludes url "blob:" || urlIncludes url "mediaDevices" || urlIncludes url "getUserMedia"

/-- The destinations stored into the runtime cache (sw.js lines 83-86). -/
def cacheableDest (d : String) : Bool :=
  d = "document" || d = "script" || d = "style" || d = "image"

/-- Fetch listener (sw.js lines 62-123).  `net` is the outcome of
`fetch(event.request)`; `openOk` and `putOk` say whether the detached
`caches.open(RUNTIME_CACHE)` / `cache.put` of the runtime-cache write
succeed.  Returns the action taken on the response path together with the
storage after the (possibly failed) runtime write. -/
def fetchHandler (req : Request) (net : NetResult) (openOk putOk : Bool)
    (st : CacheStorage) : FetchAction × CacheStorage :=
  if bypassUrl req.url then
    (FetchAction.passthrough, st)
  else
    match net with
    | NetResult.resolved none =>
      (FetchAction.respond none, st)
    | NetResult.resolved (some r) =>
      if r.status ≠ 200 ∨ r.type ≠ "basic" then
        (FetchAction.respond (some r), st)
      else
        let st' :=
          if cacheableDest req.destination then
            if openOk then
              let st1 := cacheOpen st RUNTIME_CACHE
              if putOk then cachePut st1 RUNTIME_CACHE req.url r else st1
            else st
          else st
        (FetchAction.respond (some r), st')
    | NetResult.fail =>
      match cachesMatch st req.url with
      | some cached => (FetchAction.respond (some cached), st)
      | none =>
        if req.destination = "document" then
          (FetchAction.respond (cachesMatch st "./index.html"), st)
        else
          (FetchAction.respond (some offlineResponse), st)

/-- One iteration of the `updateCache` loop (sw.js lines 142-152): fetch
the URL fresh; a rejection (or resolved null) is caught and logged; a 200
response overwrites the entry in the seed cache. -/
def updateStep (net : String → NetResult) (acc : CacheStorage) (url : String) : CacheStorage :=
  match net url with
  | NetResult.fail => acc
  | NetResult.resolved none => acc
  | NetResult.resolved (some r) =>
    if r.status = 200 then cachePut acc CACHE_NAME url r else acc

/-- `updateCache()` (sw.js lines 135-158): open the seed cache, then
refresh each seed URL in order; every per-URL failure is caught inside the
loop, and the surrounding try/catch means the function never throws — it is
a total function of its inputs here. -/
def updateCache (net : String → NetResult) (st : CacheStorage) : CacheStorage :=
  urlsToCache.foldl (updateStep net) (cacheOpen st CACHE_NAME)

/-- Data carried by a message event, when present. -/
structure MsgData where
  type : String
  deriving Repr, DecidableEq

/-- Observable operations the message listener can trigger. -/
inductive MsgAction where
  | skipWait
  | runUpdate
  | clearAll
  deriving Repr, DecidableEq

/-- `CLEAR_CACHE` body (sw.js lines 173-183): delete every namespace. -/
def clearAllCaches (st : CacheStorage) : CacheStorage :=
  (st.map Prod.fst).foldl (fun acc name => cachesDelete acc name) st

/-- Message listener (sw.js lines 161-185): three independent guarded
commands; each guard first checks `event.data` is present.  Returns the
actions triggered and the resulting storage. -/
def messageHandler (net : String → NetResult) (d : Option MsgData)
    (st : CacheStorage) : List MsgAction × CacheStorage :=
  match d with
  | none => ([], st)
  | some m =>
    let a1 : List MsgAction := if m.type = "SKIP_WAITING" then [MsgAction.skipWait] else []
    let p2 : List MsgAction × CacheStorage :=
      if m.type = "UPDATE_CACHE" then ([MsgAction.runUpdate], updateCache net st) else ([], st)
    let p3 : List MsgAction × CacheStorage :=
      if m.type = "CLEAR_CACHE" then ([MsgAction.clearAll], clearAllCaches p2.snd)
      else ([], p2.snd)
    (a1 ++ p2.fst ++ p3.fst, p3.snd)

/-- Does a fetch action answer the caller with a response carrying this
HTTP status? -/
def respondsWithStatus (a : FetchAction) (s : Nat) : Bool :=
  match a with
  | FetchAction.respond (some r) => r.status = s
  | _ => false

/-- A generic 200 same-origin response, used as concrete test data. -/
def seedOk : Response :=
  { status := 200, statusText := "OK", type := "basic"
    contentType := "text/html", body := "seed" }

/-- Concrete network where the fetch of `./index.html` rejects and every
other fetch yields a 200 basic response. -/
def netFailIndex : String → NetResult := fun u =>
  if u = "./index.html" then NetResult.fail else NetResult.resolved (some seedOk)

/-- Concrete network where every fetch yields a 200 basic response. -/
def netAllOk : String → NetResult := fun _ => NetResult.resolved (some seedOk)

/-- A concrete 404 same-origin response, used as concrete test data. -/
def notFound : Response :=
  { status := 404, statusText := "Not Found", type := "basic"
    contentType := "text/html", body := "nope" }

/-- Concrete network where the fetch of `./manifest.json` rejects and
every other fetch yields a 200 basic response. -/
def netFailManifest : String → NetResult := fun u =>
  if u = "./manifest.json" then NetResult.fail else NetResult.resolved (some seedOk)

/-! Helper lemmas about the cache-storage operations. -/

theorem lookupE_putE_self (es : CacheEntries) (k : String) (v : Response) :
    lookupE (putE es k v) k = some v := by
  induction es with
  | nil => simp [putE, lookupE]
  | cons e rest ih =>
    by_cases he : e.fst = k <;> simp [putE, lookupE, he, ih]

theorem lookupE_putE_ne (es : CacheEntries) (k k' : String) (v : Response)
    (h : k' ≠ k) : lookupE (putE es k v) k' = lookupE es k' := by
  induction es with
  | nil => simp [putE, lookupE, Ne.symm h]
  | cons e rest ih =>
    by_cases he : e.fst = k
    · have hne : e.fst ≠ k' := by rw [he]; exact Ne.symm h
      simp [putE, lookupE, he, hne, ih, h, Ne.symm h]
    · by_cases he' : e.fst = k' <;> simp [putE, lookupE, he, he', ih, h, Ne.symm h]

theorem cachePut_cons (ns : String × CacheEntries) (rest : CacheStorage)
    (name k : String) (v : Response) :
    cachePut (ns :: rest) name k v =
      (if ns.fst = name then (ns.fst, putE ns.snd k v) else ns) :: cachePut rest name k v := rfl

theorem nsExists_cachePut (st : CacheStorage) (name name' k : String) (v : Response) :
    nsExists (cachePut st name k v) name' = nsExists st name' := by
  induction st with
  | nil => rfl
  | cons ns rest ih =>
    rw [cachePut_cons]
    by_cases hn : ns.fst = name <;> simp [nsExists, hn, ih]

theorem nsEntries_cachePut_self (st : CacheStorage) (name k : String) (v : Response)
    (h : nsExists st name = true) :
    nsEntries (cachePut st name k v) name = putE (nsEntries st name) k v := by
  induction st with
  | nil => simp [nsExists] at h
  | cons ns rest ih =>
    rw [cachePut_cons]
    by_cases hn : ns.fst = name
    · simp [nsEntries, hn]
    · have h' : nsExists rest name = true := by simpa [nsExists, hn] using h
      simp [nsEntries, hn, ih h']

theorem nsEntries_cachePut_other (st : CacheStorage) (name name' k : String)
    (v : Response) (h : name' ≠ name) :
    nsEntries (cachePut st name k v) name' = nsEntries st name' := by
  induction st with
  | nil => rfl
  | cons ns rest ih =>
    rw [cachePut_cons]
    by_cases hn : ns.fst = name
    · have hne : ns.fst ≠ name' := by rw [hn]; exact Ne.symm h
      simp [nsEntries, hn, hne, ih, Ne.symm h]
    · by_cases hn' : ns.fst = name' <;> simp [nsEntries, hn, hn', ih, h]

theorem cachePut_absent (st : CacheStorage) (name k : String) (v : Response)
    (h : nsExists st name = false) : cachePut st name k v = st := by
  induction st with
  | nil => rfl
  | cons ns rest ih =>
    simp only [nsExists, Bool.or_eq_false_iff, decide_eq_false_iff_not] at h
    rw [cachePut_cons]
    simp [h.1, ih h.2]

theorem nsEntries_append_empty (st : CacheStorage) (name name' : String) :
    nsEntries (st ++ [(name, [])]) name' = nsEntries st name' := by
  induction st with
  | nil => by_cases h : name = name' <;> simp [nsEntries, h]
  | cons ns rest ih =>
    by_cases h : ns.fst = name' <;> simp [nsEntries, h, ih]

theorem nsEntries_cacheOpen (st : CacheStorage) (name name' : String) :
    nsEntries (cacheOpen st name) name' = nsEntries st name' := by
  unfold cacheOpen
  by_cases h : nsExists st name = true
  · simp [h]
  · simp [h, nsEntries_append_empty]

theorem nsExists_append_single (st : CacheStorage) (name : String)
    (es : CacheEntries) : nsExists (st ++ [(name, es)]) name = true := by
  induction st with
  | nil => simp [nsExists]
  | cons ns rest ih => simp [nsExists, ih]

theorem nsExists_cacheOpen_self (st : CacheStorage) (name : String) :
    nsExists (cacheOpen st name) name = true := by
  unfold cacheOpen
  by_cases h : nsExists st name = true
  · simp [h]
  · simp [h, nsExists_append_single]

theorem cacheLookup_cachePut_self (st : CacheStorage) (name k : String)
    (v : Response) (h : nsExists st name = true) :
    cacheLookup (cachePut st name k v) name k = some v := by
  unfold cacheLookup
  rw [nsEntries_cachePut_self st name k v h, lookupE_putE_self]

theorem cacheLookup_cachePut_ne (st : CacheStorage) (name k k' : String)
    (v : Response) (h : k' ≠ k) :
    cacheLookup (cachePut st name k v) name k' = cacheLookup st name k' := by
  by_cases he : nsExists st name = true
  · unfold cacheLookup
    rw [nsEntries_cachePut_self st name k v he, lookupE_putE_ne _ _ _ _ h]
  · rw [cachePut_absent st name k v (by simpa using he)]

theorem cacheLookup_cacheOpen (st : CacheStorage) (name name' k : String) :
    cacheLookup (cacheOpen st name) name' k = cacheLookup st name' k := by
  unfold cacheLookup
  rw [nsEntries_cacheOpen]

theorem nsExists_cachesDelete_self (st : CacheStorage) (name : String) :
    nsExists (cachesDelete st name) name = false := by
  induction st with
  | nil => rfl
  | cons ns rest ih =>
    by_cases h : ns.fst = name <;> simp [cachesDelete, nsExists, h, ih]

theorem nsExists_cachesDelete_ne (st : CacheStorage) (n name : String)
    (h : name ≠ n) : nsExists (cachesDelete st n) name = nsExists st name := by
  induction st with
  | nil => rfl
  | cons ns rest ih =>
    by_cases h1 : ns.fst = n
    · have : ns.fst ≠ name := by rw [h1]; exact Ne.symm h
      simp [cachesDelete, nsExists, h1, this, ih, Ne.symm h]
    · simp [cachesDelete, nsExists, h1, ih]

theorem nsExists_cachesDelete_imp (st : CacheStorage) (n name : String)
    (h : nsExists (cachesDelete st n) name = true) : nsExists st name = true := by
  by_cases hn : name = n
  · subst hn
    rw [nsExists_cachesDelete_self] at h
    cases h
  · rw [nsExists_cachesDelete_ne st n name hn] at h
    exact h

theorem nsExists_activateStep_imp (acc : CacheStorage) (n name : String)
    (h : nsExists (activateStep acc n) name = true) : nsExists acc name = true := by
  unfold activateStep at h
  by_cases hc : n ≠ CACHE_NAME ∧ n ≠ RUNTIME_CACHE
  · rw [if_pos hc] at h
    exact nsExists_cachesDelete_imp acc n name h
  · rwa [if_neg hc] at h

theorem nsExists_foldDel_imp (names : List String) :
    ∀ (acc : CacheStorage) (name : String),
      nsExists (names.foldl activateStep acc) name = true → nsExists acc name = true := by
  induction names with
  | nil => intro acc name h; exact h
  | cons n rest ih =>
    intro acc name h
    exact nsExists_activateStep_imp acc n name (ih (activateStep acc n) name h)

theorem nsExists_foldDel_dead (names : List String) (acc : CacheStorage)
    (name : String) (h : nsExists acc name = false) :
    nsExists (names.foldl activateStep acc) name = false := by
  cases hf : nsExists (names.foldl activateStep acc) name
  · rfl
  · exact absurd (nsExists_foldDel_imp names acc name hf) (by simp [h])

theorem nsExists_activateStep_keeper (acc : CacheStorage) (n name : String)
    (hk : name = CACHE_NAME ∨ name = RUNTIME_CACHE)
    (h : nsExists acc name = true) : nsExists (activateStep acc n) name = true := by
  unfold activateStep
  by_cases hc : n ≠ CACHE_NAME ∧ n ≠ RUNTIME_CACHE
  · rw [if_pos hc]
    have hne : name ≠ n := by
      rcases hk with rfl | rfl
      · exact fun hh => hc.1 hh.symm
      · exact fun hh => hc.2 hh.symm
    rw [nsExists_cachesDelete_ne acc n name hne]
    exact h
  · rwa [if_neg hc]

theorem nsExists_foldDel_keeper (names : List String) :
    ∀ (acc : CacheStorage) (name : String),
      (name = CACHE_NAME ∨ name = RUNTIME_CACHE) → nsExists acc name = true →
      nsExists (names.foldl activateStep acc) name = true := by
  induction names with
  | nil => intro acc name _ h; exact h
  | cons n rest ih =>
    intro acc name hk h
    exact ih (activateStep acc n) name hk (nsExists_activateStep_keeper acc n name hk h)

theorem nsExists_foldDel_nonkeeper (names : List String) :
    ∀ (acc : CacheStorage) (name : String), name ∈ names →
      ¬(name = CACHE_NAME ∨ name = RUNTIME_CACHE) →
      nsExists (names.foldl activateStep acc) name = false := by
  induction names with
  | nil => intro acc name hm _; exact absurd hm (List.not_mem_nil name)
  | cons n rest ih =>
    intro acc name hm hk
    rcases List.mem_cons.mp hm with rfl | hm'
    · push_neg at hk
      have hstep : nsExists (activateStep acc name) name = false := by
        unfold activateStep
        rw [if_pos ⟨hk.1, hk.2⟩]
        exact nsExists_cachesDelete_self acc name
      exact nsExists_foldDel_dead rest (activateStep acc name) name hstep
    · exact ih (activateStep acc n) name hm' hk

theorem nsExists_iff_mem (st : CacheStorage) (name : String) :
    nsExists st name = true ↔ name ∈ st.map Prod.fst := by
  induction st with
  | nil => simp [nsExists]
  | cons ns rest ih =>
    simp only [nsExists, Bool.or_eq_true, decide_eq_true_eq, ih, List.map_cons,
      List.mem_cons]
    exact or_congr_left eq_comm

theorem addAll_none_of_fail (net : String → NetResult) (urls : List String)
    (url : String) (hm : url ∈ urls) (hf : net url = NetResult.fail) :
    addAll net urls = none := by
  induction urls with
  | nil => exact absurd hm (List.not_mem_nil url)
  | cons u rest ih =>
    rcases List.mem_cons.mp hm with rfl | hm'
    · unfold addAll
      rw [hf]
    · unfold addAll
      cases hn : net u with
      | fail => rfl
      | resolved ro =>
        cases ro with
        | none => rfl
        | some r => simp [ih hm']

theorem addAll_map_fst (net : String → NetResult) (urls : List String) :
    ∀ entries : List (String × Response),
      addAll net urls = some entries → entries.map Prod.fst = urls := by
  induction urls with
  | nil =>
    intro entries h
    simp [addAll] at h
    subst h
    rfl
  | cons u rest ih =>
    intro entries h
    unfold addAll at h
    split at h
    · next r _ =>
      split at h
      · cases hrest : addAll net rest with
        | none => rw [hrest] at h; cases h
        | some es =>
          rw [hrest] at h
          obtain rfl : (u, r) :: es = entries := Option.some.inj h
          simp [ih es hrest]
      · cases h
    · cases h

theorem installFold_isSome (entries : List (String × Response)) :
    ∀ (acc : CacheStorage) (key : String), nsExists acc CACHE_NAME = true →
      (key ∈ entries.map Prod.fst ∨ (cacheLookup acc CACHE_NAME key).isSome = true) →
      (cacheLookup (entries.foldl (fun a e => cachePut a CACHE_NAME e.fst e.snd) acc)
          CACHE_NAME key).isSome = true := by
  induction entries with
  | nil =>
    intro acc key _ h
    rcases h with h | h
    · simp at h
    · exact h
  | cons e rest ih =>
    intro acc key hns h
    rw [List.foldl_cons]
    apply ih (cachePut acc CACHE_NAME e.fst e.snd) key
    · rw [nsExists_cachePut]; exact hns
    · by_cases hk : key = e.fst
      · right
        rw [hk, cacheLookup_cachePut_self acc CACHE_NAME e.fst e.snd hns]
        rfl
      · rcases h with h | h
        · simp only [List.map_cons, List.mem_cons] at h
          rcases h with h | h
          · exact absurd h hk
          · exact Or.inl h
        · right
          rw [cacheLookup_cachePut_ne acc CACHE_NAME e.fst key e.snd hk]
          exact h

theorem nsExists_updateStep (net : String → NetResult) (acc : CacheStorage)
    (u name : String) : nsExists (updateStep net acc u) name = nsExists acc name := by
  unfold updateStep
  split
  · rfl
  · rfl
  · split
    · rw [nsExists_cachePut]
    · rfl

theorem cacheLookup_updateStep_ne (net : String → NetResult) (acc : CacheStorage)
    (u key : String) (h : key ≠ u) :
    cacheLookup (updateStep net acc u) CACHE_NAME key = cacheLookup acc CACHE_NAME key := by
  unfold updateStep
  split
  · rfl
  · rfl
  · next r _ =>
    split
    · rw [cacheLookup_cachePut_ne acc CACHE_NAME u key r h]
    · rfl

theorem nsEntries_updateStep_other (net : String → NetResult) (acc : CacheStorage)
    (u name : String) (h : name ≠ CACHE_NAME) :
    nsEntries (updateStep net acc u) name = nsEntries acc name := by
  unfold updateStep
  split
  · rfl
  · rfl
  · next r _ =>
    split
    · rw [nsEntries_cachePut_other acc CACHE_NAME name u r h]
    · rfl

theorem cacheLookup_updateFold_not_mem (net : String → NetResult) (urls : List String) :
    ∀ (acc : CacheStorage) (key : String), key ∉ urls →
      cacheLookup (urls.foldl (updateStep net) acc) CACHE_NAME key
        = cacheLookup acc CACHE_NAME key := by
  induction urls with
  | nil => intro acc key _; rfl
  | cons u rest ih =>
    intro acc key hk
    rw [List.foldl_cons, ih (updateStep net acc u) key (fun hh => hk (List.mem_cons_of_mem u hh)),
      cacheLookup_updateStep_ne net acc u key (fun hh => hk (hh ▸ List.mem_cons_self u rest))]

theorem nsEntries_updateFold_other (net : String → NetResult) (urls : List String) :
    ∀ (acc : CacheStorage) (name : String), name ≠ CACHE_NAME →
      nsEntries (urls.foldl (updateStep net) acc) name = nsEntries acc name := by
  induction urls with
  | nil => intro acc name _; rfl
  | cons u rest ih =>
    intro acc name h
    rw [List.foldl_cons, ih (updateStep net acc u) name h,
      nsEntries_updateStep_other net acc u name h]

theorem updateFold_hit (net : String → NetResult) (urls : List String) :
    ∀ (acc : CacheStorage) (url : String) (r : Response), urls.Nodup → url ∈ urls →
      net url = NetResult.resolved (some r) → r.status = 200 →
      nsExists acc CACHE_NAME = true →
      cacheLookup (urls.foldl (updateStep net) acc) CACHE_NAME url = some r := by
  induction urls with
  | nil => intro acc url r _ hm; exact absurd hm (List.not_mem_nil url)
  | cons u rest ih =>
    intro acc url r hnd hm hnet h200 hns
    rcases List.mem_cons.mp hm with rfl | hm'
    · have hstep : cacheLookup (updateStep net acc url) CACHE_NAME url = some r := by
        unfold updateStep
        split
        · next heq => rw [hnet] at heq; cases heq
        · next heq => rw [hnet] at heq; cases heq
        · next r' heq =>
          rw [hnet] at heq
          injection heq with h1
          injection h1 with h2
          subst h2
          rw [if_pos h200]
          exact cacheLookup_cachePut_self acc CACHE_NAME url r hns
      have hnotin : url ∉ rest := (List.nodup_cons.mp hnd).1
      rw [List.foldl_cons,
        cacheLookup_updateFold_not_mem net rest (updateStep net acc url) url hnotin]
      exact hstep
    · rw [List.foldl_cons]
      exact ih (updateStep net acc u) url r (List.nodup_cons.mp hnd).2 hm' hnet h200
        (by rw [nsExists_updateStep]; exact hns)

/-- C8: an intercepted request whose URL pattern-matches `blob:` or the
live-media APIs is not responded to (it passes through to the network
unmodified) and no entry is written to any cache namespace. -/
theorem c8_stream_bypass (req : Request) (net : NetResult) (openOk putOk : Bool)
    (st : CacheStorage) (h : bypassUrl req.url = true) :
    fetchHandler req net openOk putOk st = (FetchAction.passthrough, st) := by
  unfold fetchHandler
  simp [h]

/-- Witness for C8 at a concrete `blob:` URL. -/
theorem c8_stream_bypass_witness :
    bypassUrl "blob:6f0a-11" = true ∧
    fetchHandler ⟨"blob:6f0a-11", "image"⟩ (NetResult.resolved (some seedOk)) true true []
      = (FetchAction.passthrough, []) :=
  ⟨by decide,
   c8_stream_bypass ⟨"blob:6f0a-11", "image"⟩ (NetResult.resolved (some seedOk))
     true true [] (by decide)⟩

/-- C3: when the network responds with a non-2xx status or a non-basic
type, that response is returned as-is, no cache entry is written and no
fallback is attempted (the storage is unchanged and the action is exactly
the network response). -/
theorem c3_nonsuccess_as_is (req : Request) (r : Response) (openOk putOk : Bool)
    (st : CacheStorage) (hb : bypassUrl req.url = false)
    (h : ¬(200 ≤ r.status ∧ r.status ≤ 299) ∨ r.type ≠ "basic") :
    fetchHandler req (NetResult.resolved (some r)) openOk putOk st
      = (FetchAction.respond (some r), st) := by
  have hcond : r.status ≠ 200 ∨ r.type ≠ "basic" := by
    rcases h with h | h
    · left; omega
    · right; exact h
  unfold fetchHandler
  simp only [hb, Bool.false_eq_true, if_false]
  rw [if_pos hcond]

/-- Witness for C3 at a concrete 404 response. -/
theorem c3_nonsuccess_as_is_witness :
    bypassUrl "./api/data" = false ∧
    fetchHandler ⟨"./api/data", "document"⟩ (NetResult.resolved (some notFound)) true true []
      = (FetchAction.respond (some notFound), []) :=
  ⟨by decide,
   c3_nonsuccess_as_is ⟨"./api/data", "document"⟩ notFound true true []
     (by decide) (by decide)⟩

/-- C6: the response handed back by the fetch handler never depends on the
outcome of the detached runtime-cache open/write (first conjunct), and for
a successful basic 200 network response of a non-bypassed request the
original response is what is returned, whatever the write outcome (second
conjunct). -/
theorem c6_detached_write (req : Request) (net : NetResult) (openOk putOk : Bool)
    (st : CacheStorage) :
    (fetchHandler req net openOk putOk st).fst = (fetchHandler req net true true st).fst
    ∧ (∀ r : Response, bypassUrl req.url = false →
        net = NetResult.resolved (some r) → r.status = 200 → r.type = "basic" →
        (fetchHandler req net openOk putOk st).fst = FetchAction.respond (some r)) := by
  constructor
  · unfold fetchHandler
    by_cases hb : bypassUrl req.url
    · simp [hb]
    · simp only [hb, Bool.false_eq_true, if_false]
      cases net with
      | fail => rfl
      | resolved ro =>
        cases ro with
        | none => rfl
        | some r =>
          by_cases hc : r.status ≠ 200 ∨ r.type ≠ "basic"
          · simp [hc]
          · simp [hc]
  · intro r hb hnet h200 hbasic
    subst hnet
    unfold fetchHandler
    simp [hb, h200, hbasic]

/-- Witness for C6: with both the runtime-cache open and the write failing,
the caller still receives the original 200 response. -/
theorem c6_detached_write_witness :
    (fetchHandler ⟨"./app.js", "script"⟩ (NetResult.resolved (some seedOk)) false false []).fst
      = (fetchHandler ⟨"./app.js", "script"⟩ (NetResult.resolved (some seedOk)) true true []).fst
    ∧ (fetchHandler ⟨"./app.js", "script"⟩ (NetResult.resolved (some seedOk)) false false []).fst
      = FetchAction.respond (some seedOk) :=
  ⟨(c6_detached_write ⟨"./app.js", "script"⟩ (NetResult.resolved (some seedOk)) false false []).1,
   (c6_detached_write ⟨"./app.js", "script"⟩ (NetResult.resolved (some seedOk)) false false []).2
     seedOk (by decide) rfl (by decide) (by decide)⟩

/-- C9: a message event with absent data, or a command kind other than the
three recognized ones, triggers no action and leaves the storage untouched
(the handler is a total function, so it cannot throw). -/
theorem c9_unknown_message (net : String → NetResult) (d : Option MsgData)
    (st : CacheStorage)
    (h : d = none ∨ ∀ m : MsgData, d = some m →
        m.type ≠ "SKIP_WAITING" ∧ m.type ≠ "UPDATE_CACHE" ∧ m.type ≠ "CLEAR_CACHE") :
    messageHandler net d st = ([], st) := by
  cases d with
  | none => rfl
  | some m =>
    rcases h with h | h
    · simp at h
    · obtain ⟨h1, h2, h3⟩ := h m rfl
      simp [messageHandler, h1, h2, h3]

/-- C2 counterexample: a document-kind request whose network fetch fails,
with nothing in any cache (in particular no `./index.html` entry), is
answered with the bare result of the root-document lookup — no response at
all — rather than with a 503 plain-text response, contrary to the claim
that the 503 synthesis also covers document-kind requests. -/
theorem c2_offline_fallback_counterexample :
    (fetchHandler ⟨"./missing.html", "document"⟩ NetResult.fail true true []).fst
      = FetchAction.respond none
    ∧ respondsWithStatus
        (fetchHandler ⟨"./missing.html", "document"⟩ NetResult.fail true true []).fst 503
      = false :=
  ⟨by decide, by decide⟩

/-- C2 (amended): on network failure, a cached entry for the request is
returned when one exists; otherwise a document-kind request is answered
with whatever the `./index.html` lookup yields (possibly no response at
all), and only a non-document request falls through to the synthesized
offline response with status 503 and plain-text content type. -/
theorem c2_offline_fallback (req : Request) (openOk putOk : Bool) (st : CacheStorage)
    (hb : bypassUrl req.url = false) :
    (∀ r : Response, cachesMatch st req.url = some r →
        fetchHandler req NetResult.fail openOk putOk st = (FetchAction.respond (some r), st))
    ∧ (cachesMatch st req.url = none → req.destination = "document" →
        fetchHandler req NetResult.fail openOk putOk st
          = (FetchAction.respond (cachesMatch st "./index.html"), st))
    ∧ (cachesMatch st req.url = none → req.destination ≠ "document" →
        fetchHandler req NetResult.fail openOk putOk st
          = (FetchAction.respond (some offlineResponse), st)
        ∧ offlineResponse.status = 503
        ∧ offlineResponse.contentType = "text/plain; charset=utf-8") := by
  refine ⟨?_, ?_, ?_⟩
  · intro r hm
    unfold fetchHandler
    simp [hb, hm]
  · intro hm hd
    unfold fetchHandler
    simp [hb, hm, hd]
  · intro hm hd
    refine ⟨?_, rfl, rfl⟩
    unfold fetchHandler
    simp [hb, hm, hd]

/-- Witness for C2 (amended), taking the offline-response branch at a
concrete non-document request with an empty storage. -/
theorem c2_offline_fallback_witness :
    bypassUrl "./style.css" = false ∧
    (fetchHandler ⟨"./style.css", "style"⟩ NetResult.fail true true []
        = (FetchAction.respond (some offlineResponse), [])
      ∧ offlineResponse.status = 503
      ∧ offlineResponse.contentType = "text/plain; charset=utf-8") :=
  ⟨by decide,
   (c2_offline_fallback ⟨"./style.css", "style"⟩ true true [] (by decide)).2.2
     (by decide) (by decide)⟩

/-- Witness for C9 at a concrete unrecognized command kind. -/
theorem c9_unknown_message_witness :
    messageHandler netAllOk (some ⟨"PING"⟩) [] = ([], []) :=
  c9_unknown_message netAllOk (some ⟨"PING"⟩) []
    (Or.inr (fun m hm => by
      obtain rfl : m = ⟨"PING"⟩ := (Option.some.inj hm).symm
      exact ⟨by decide, by decide, by decide⟩))

/-- C4: a namespace that existed before the activate cleanup still exists
afterwards exactly when its name is the current versioned seed-cache name
or `runtime-cache`; every other pre-existing namespace has been deleted. -/
theorem c4_namespace_pruning (st : CacheStorage) (name : String)
    (h : nsExists st name = true) :
    nsExists (activateHandler st) name = true
      ↔ (name = CACHE_NAME ∨ name = RUNTIME_CACHE) := by
  unfold activateHandler
  constructor
  · intro hafter
    by_contra hk
    have hm : name ∈ st.map Prod.fst := (nsExists_iff_mem st name).mp h
    have hdead : nsExists ((st.map Prod.fst).foldl activateStep st) name = false :=
      nsExists_foldDel_nonkeeper (st.map Prod.fst) st name hm hk
    rw [hdead] at hafter
    cases hafter
  · intro hk
    exact nsExists_foldDel_keeper (st.map Prod.fst) st name hk h

/-- C1 counterexample: with a network on which the seed URL `./index.html`
rejects, the promise gating install completion still resolves (the
trailing catch swallows the error), so the failure is not observable to
the lifecycle caller, contrary to the claim. -/
theorem c1_install_counterexample :
    ("./index.html" ∈ urlsToCache ∧ netFailIndex "./index.html" = NetResult.fail)
    ∧ (installHandler netFailIndex []).rejected = false :=
  ⟨⟨by decide, by decide⟩, by decide⟩

/-- C1 (amended): when the fetch of any single seed URL fails during
install, the error is caught and logged; the promise gating install
completion resolves successfully — the failure is not reported to the
lifecycle caller — and only the skip-waiting request is skipped. -/
theorem c1_install_failure_swallowed (net : String → NetResult) (st : CacheStorage)
    (url : String) (hm : url ∈ urlsToCache) (hf : net url = NetResult.fail) :
    (installHandler net st).rejected = false
    ∧ (installHandler net st).skipWaiting = false := by
  unfold installHandler
  rw [addAll_none_of_fail net urlsToCache url hm hf]
  exact ⟨rfl, rfl⟩

/-- Witness for C1 (amended) at the concrete failing network. -/
theorem c1_install_failure_swallowed_witness :
    ("./index.html" ∈ urlsToCache ∧ netFailIndex "./index.html" = NetResult.fail)
    ∧ ((installHandler netFailIndex []).rejected = false
        ∧ (installHandler netFailIndex []).skipWaiting = false) :=
  ⟨⟨by decide, by decide⟩,
   c1_install_failure_swallowed netFailIndex [] "./index.html" (by decide) (by decide)⟩

/-- C5: after an install that completes successfully (the non-catch path,
which also requests skip-waiting), every URL of the seed asset list has an
entry in the versioned seed cache namespace. -/
theorem c5_seed_completeness (net : String → NetResult) (st : CacheStorage)
    (hs : (installHandler net st).skipWaiting = true) :
    ∀ url ∈ urlsToCache,
      (cacheLookup (installHandler net st).storage CACHE_NAME url).isSome = true := by
  intro url hm
  unfold installHandler at hs ⊢
  cases h : addAll net urlsToCache with
  | none =>
    rw [h] at hs
    cases hs
  | some entries =>
    show (cacheLookup
        (entries.foldl (fun acc e => cachePut acc CACHE_NAME e.fst e.snd)
          (cacheOpen st CACHE_NAME)) CACHE_NAME url).isSome = true
    apply installFold_isSome entries (cacheOpen st CACHE_NAME) url
      (nsExists_cacheOpen_self st CACHE_NAME)
    left
    rw [addAll_map_fst net urlsToCache entries h]
    exact hm

/-- Witness for C5 at the all-successful concrete network. -/
theorem c5_seed_completeness_witness :
    (installHandler netAllOk []).skipWaiting = true
    ∧ (cacheLookup (installHandler netAllOk []).storage CACHE_NAME
        "./manifest.json").isSome = true :=
  ⟨by decide,
   c5_seed_completeness netAllOk [] (by decide) "./manifest.json" (by decide)⟩

/-- C7: during Cache Refresh, a fetch failure for one seed URL does not
abort the rest — every seed URL whose fresh fetch resolves with status 200
(the success criterion the refresh applies) ends up overwritten in the
seed cache; the operation is a total function of its inputs, so it always
completes without raising an error to its caller. -/
theorem c7_refresh_resilient (net : String → NetResult) (st : CacheStorage)
    (url : String) (r : Response) (hm : url ∈ urlsToCache)
    (hnet : net url = NetResult.resolved (some r)) (h200 : r.status = 200) :
    cacheLookup (updateCache net st) CACHE_NAME url = some r := by
  unfold updateCache
  exact updateFold_hit net urlsToCache (cacheOpen st CACHE_NAME) url r (by decide)
    hm hnet h200 (nsExists_cacheOpen_self st CACHE_NAME)

/-- Witness for C7: the manifest fetch rejects, yet `./index.html` is
still refreshed. -/
theorem c7_refresh_resilient_witness :
    ("./index.html" ∈ urlsToCache
      ∧ netFailManifest "./manifest.json" = NetResult.fail
      ∧ netFailManifest "./index.html" = NetResult.resolved (some seedOk))
    ∧ cacheLookup (updateCache netFailManifest []) CACHE_NAME "./index.html"
        = some seedOk :=
  ⟨⟨by decide, by decide, by decide⟩,
   c7_refresh_resilient netFailManifest [] "./index.html" seedOk
     (by decide) (by decide) (by decide)⟩

/-- C10: Cache Refresh writes only into the versioned seed cache — every
other namespace keeps exactly its entries — and within the seed cache only
keys that are seed-asset URLs can change. -/
theorem c10_refresh_frame (net : String → NetResult) (st : CacheStorage) :
    (∀ name, name ≠ CACHE_NAME →
        nsEntries (updateCache net st) name = nsEntries st name)
    ∧ (∀ key, key ∉ urlsToCache →
        cacheLookup (updateCache net st) CACHE_NAME key
          = cacheLookup st CACHE_NAME key) := by
  constructor
  · intro name h
    unfold updateCache
    rw [nsEntries_updateFold_other net urlsToCache (cacheOpen st CACHE_NAME) name h,
      nsEntries_cacheOpen]
  · intro key h
    unfold updateCache
    rw [cacheLookup_updateFold_not_mem net urlsToCache (cacheOpen st CACHE_NAME) key h,
      cacheLookup_cacheOpen]

/-- Witness for C10 at a concrete runtime-cache content and a non-seed
key. -/
theorem c10_refresh_frame_witness :
    ("runtime-cache" ≠ CACHE_NAME
      ∧ nsEntries (updateCache netAllOk [("runtime-cache", [("./a.js", notFound)])])
          "runtime-cache"
        = nsEntries [("runtime-cache", [("./a.js", notFound)])] "runtime-cache")
    ∧ ("./other.js" ∉ urlsToCache
      ∧ cacheLookup (updateCache netAllOk [("runtime-cache", [("./a.js", notFound)])])
          CACHE_NAME "./other.js"
        = cacheLookup [("runtime-cache", [("./a.js", notFound)])] CACHE_NAME "./other.js") :=
  ⟨⟨by decide,
    (c10_refresh_frame netAllOk [("runtime-cache", [("./a.js", notFound)])]).1
      "runtime-cache" (by decide)⟩,
   ⟨by decide,
    (c10_refresh_frame netAllOk [("runtime-cache", [("./a.js", notFound)])]).2
      "./other.js" (by decide)⟩⟩

/-- Witness for C4: a stale versioned namespace existing beforehand is
gone after activate. -/
theorem c4_namespace_pruning_witness :
    nsExists [("mirror-therapy-v1.0.0", []), ("old-junk", []), ("runtime-cache", [])]
        "old-junk" = true
    ∧ (nsExists (activateHandler
          [("mirror-therapy-v1.0.0", []), ("old-junk", []), ("runtime-cache", [])])
          "old-junk" = true
        ↔ ("old-junk" = CACHE_NAME ∨ "old-junk" = RUNTIME_CACHE)) :=
  ⟨by decide,
   c4_namespace_pruning
     [("mirror-therapy-v1.0.0", []), ("old-junk", []), ("runtime-cache", [])]
     "old-junk" (by decide)⟩

end SW
